import Mathlib

/-!
Verification development for the Macros-NX macro builder
(`src/macroBuilder.py`).  The macro playback engine, the socket command
sender, the clone / import / save operations on the macro library and the
preview rendering are shallowly embedded as executable Lean definitions,
translated branch by branch from the Python source.  Step tokens are
Python strings sliced by code point, so they are modelled as `List Char`;
`step.startswith(p)` followed by `step[len(p):]` is modelled by the single
function `stripPfx p step`, whose `some` result is the sliced remainder.
-/

namespace MacrosNX

/-- Combination of Python `s.startswith(p)` and the slice `s[len(p):]`:
returns `some rest` when `p` is a character-prefix of `s` and `s = p ++ rest`,
and `none` otherwise.  Every slice offset used by `macroBuilder.py` equals the
length of the sniffed literal, so this one function captures both. -/
def stripPfx : List Char → List Char → Option (List Char)
  | [], s => some s
  | a :: p, s =>
    match s with
    | [] => none
    | b :: s2 => if a = b then stripPfx p s2 else none

/-- Python `str.upper()` restricted to the ASCII tokens the GUI produces. -/
def upperTok (s : List Char) : List Char := s.map Char.toUpper

/-- Check used to model `bytes.encode("ascii")`: `True` iff every code point
is below 128. -/
def isAscii (s : List Char) : Bool := s.all (fun c => c.toNat < 128)

/-- Accumulator for the digit run of a decimal literal, as consumed by
Python `int()`. -/
def digitsValAux : List Char → Nat → Option Nat
  | [], acc => some acc
  | c :: cs, acc => if c.isDigit then digitsValAux cs (acc * 10 + (c.toNat - 48)) else none

/-- Value of a non-empty all-digit character run. -/
def digitsVal (s : List Char) : Option Nat :=
  match s with
  | [] => none
  | _ => digitsValAux s 0

/-- Model of Python `int(s)` on the decimal literals the tool produces:
an optional sign followed by a non-empty digit run.  (CPython additionally
strips surrounding whitespace and allows digit-group underscores; no token
built by the GUI contains either, so they are not modelled.)  `none` models
`int()` raising `ValueError`. -/
def pyInt (s : List Char) : Option Int :=
  match s with
  | '-' :: cs => (digitsVal cs).map (fun n => -(n : Int))
  | '+' :: cs => (digitsVal cs).map (fun n => (n : Int))
  | cs => (digitsVal cs).map (fun n => (n : Int))

/-- Characters of Python `str(n)` for an `int` value `n`. -/
def intChars (n : Int) : List Char := (toString n).data

/-- One observable effect of a playback run: a command handed to
`_send_sysbot_cmd` (without the trailing newline, which the sender adds), or
a real-time delay in milliseconds (`time.sleep` of the same duration). -/
inductive Ev where
  | send : List Char → Ev
  | sleep : Nat → Ev
deriving DecidableEq

/-- Fault model for the socket writes performed during one playback run:
`failAt = some n` makes the `n`-th `sendall` (0-based, counting only calls
that reach the socket) raise an exception whose text is `errMsg`. -/
structure Transport where
  failAt : Option Nat
  errMsg : List Char
deriving DecidableEq

/-- Message of the `ValueError` raised by `int()` on a malformed literal.
(CPython's message also quotes the offending text; no claim depends on it.) -/
def invalidIntMsg : List Char := "invalid literal for int with base 10".data

/-- Message of the `ValueError` raised by `time.sleep` on a negative duration. -/
def negSleepMsg : List Char := "sleep length must be non-negative".data

/-- Message of the `UnicodeEncodeError` raised by `str.encode("ascii")` on a
non-ASCII command. -/
def unicodeErrMsg : List Char := "ascii codec cannot encode character".data

/-- Exception behaviour of `_send_sysbot_cmd` as invoked from `_test_macro`
while connected: `(cmd+"\n").encode("ascii")` raises on a non-ASCII command,
then `sendall` raises iff the transport fault model says this write fails.
`some e` is the raised exception's text, `none` is a successful write;
the counter `c` is the index of this socket write within the run. -/
def sendRaises (tr : Transport) (c : Nat) (cmd : List Char) : Option (List Char) :=
  if isAscii (cmd ++ ['\n']) = false then some unicodeErrMsg
  else if tr.failAt = some c then some tr.errMsg
  else none

/-- Command text `f"press {btn}"`. -/
def pressCmd (btn : List Char) : List Char := "press ".data ++ btn

/-- Command text `f"release {btn}"`. -/
def releaseCmd (btn : List Char) : List Char := "release ".data ++ btn

/-- Command text `f"click {btn}"`. -/
def clickCmd (btn : List Char) : List Char := "click ".data ++ btn

/-- Command text `f"setStick {side} {x} {y}"`. -/
def setStickCmd (side : List Char) (x y : Int) : List Char :=
  "setStick ".data ++ side ++ [' '] ++ intChars x ++ [' '] ++ intChars y

/-- Outcome of the `while i < len(steps)` loop of `_test_macro`: the events
that happened in order, the exception text if one was raised (propagating out
of the loop to the `except` clause), and the number of socket writes
performed. -/
structure RunOut where
  trace : List Ev
  err? : Option (List Char)
  sent : Nat
deriving DecidableEq

/-- Playback loop of `MacroBuilderApp._test_macro` (lines 743-795), translated
branch by branch.  `c` counts the socket writes already performed, feeding the
transport fault model.  Branches, in source order:

* `Button:` with a following `Wait:` step: `press`, `int()` the wait payload,
  `time.sleep(ms/1000)`, `release`, advance past both steps;
* `Button:` otherwise: `click`, `time.sleep(0.1)`;
* `Hold:`: `press`, no delay;
* `Release:`: `release`, no delay;
* `%` / `&` / `Stick:`: split the payload on `","`; exactly two fields are
  `int()`-parsed and sent as `setStick`, then `time.sleep(0.1)`; any other
  field count falls through silently (the source spells this block out three
  times, once per stick kind, and so does this translation);
* `Wait:`: `int()` the payload and `time.sleep(ms/1000)`;
* anything else falls through silently.

`time.sleep` raises `ValueError` on a negative duration, modelled by the
`ms < 0` guards. -/
def runSteps (tr : Transport) : List (List Char) → Nat → RunOut
  | [], c => ⟨[], none, c⟩
  | step :: rest, c =>
    match stripPfx "Button:".data step with
    | some bRaw =>
      let btn := upperTok bRaw
      match rest with
      | next :: rest2 =>
        match stripPfx "Wait:".data next with
        | some wTok =>
          match sendRaises tr c (pressCmd btn) with
          | some e => ⟨[], some e, c⟩
          | none =>
            match pyInt wTok with
            | none => ⟨[.send (pressCmd btn)], some invalidIntMsg, c + 1⟩
            | some ms =>
              if ms < 0 then ⟨[.send (pressCmd btn)], some negSleepMsg, c + 1⟩
              else
                match sendRaises tr (c + 1) (releaseCmd btn) with
                | some e => ⟨[.send (pressCmd btn), .sleep ms.toNat], some e, c + 1⟩
                | none =>
                  let r := runSteps tr rest2 (c + 2)
                  ⟨.send (pressCmd btn) :: .sleep ms.toNat :: .send (releaseCmd btn) :: r.trace,
                    r.err?, r.sent⟩
        | none =>
          match sendRaises tr c (clickCmd btn) with
          | some e => ⟨[], some e, c⟩
          | none =>
            let r := runSteps tr (next :: rest2) (c + 1)
            ⟨.send (clickCmd btn) :: .sleep 100 :: r.trace, r.err?, r.sent⟩
      | [] =>
        match sendRaises tr c (clickCmd btn) with
        | some e => ⟨[], some e, c⟩
        | none => ⟨[.send (clickCmd btn), .sleep 100], none, c + 1⟩
    | none =>
      match stripPfx "Hold:".data step with
      | some bRaw =>
        match sendRaises tr c (pressCmd (upperTok bRaw)) with
        | some e => ⟨[], some e, c⟩
        | none =>
          let r := runSteps tr rest (c + 1)
          ⟨.send (pressCmd (upperTok bRaw)) :: r.trace, r.err?, r.sent⟩
      | none =>
        match stripPfx "Release:".data step with
        | some bRaw =>
          match sendRaises tr c (releaseCmd (upperTok bRaw)) with
          | some e => ⟨[], some e, c⟩
          | none =>
            let r := runSteps tr rest (c + 1)
            ⟨.send (releaseCmd (upperTok bRaw)) :: r.trace, r.err?, r.sent⟩
        | none =>
          match stripPfx "%".data step with
          | some payload =>
            match List.splitOn ',' payload with
            | [xs, ys] =>
              match pyInt xs with
              | none => ⟨[], some invalidIntMsg, c⟩
              | some x =>
                match pyInt ys with
                | none => ⟨[], some invalidIntMsg, c⟩
                | some y =>
                  match sendRaises tr c (setStickCmd "LEFT".data x y) with
                  | some e => ⟨[], some e, c⟩
                  | none =>
                    let r := runSteps tr rest (c + 1)
                    ⟨.send (setStickCmd "LEFT".data x y) :: .sleep 100 :: r.trace,
                      r.err?, r.sent⟩
            | _ => runSteps tr rest c
          | none =>
            match stripPfx "&".data step with
            | some payload =>
              match List.splitOn ',' payload with
              | [xs, ys] =>
                match pyInt xs with
                | none => ⟨[], some invalidIntMsg, c⟩
                | some x =>
                  match pyInt ys with
                  | none => ⟨[], some invalidIntMsg, c⟩
                  | some y =>
                    match sendRaises tr c (setStickCmd "RIGHT".data x y) with
                    | some e => ⟨[], some e, c⟩
                    | none =>
                      let r := runSteps tr rest (c + 1)
                      ⟨.send (setStickCmd "RIGHT".data x y) :: .sleep 100 :: r.trace,
                        r.err?, r.sent⟩
              | _ => runSteps tr rest c
            | none =>
              match stripPfx "Stick:".data step with
              | some payload =>
                match List.splitOn ',' payload with
                | [xs, ys] =>
                  match pyInt xs with
                  | none => ⟨[], some invalidIntMsg, c⟩
                  | some x =>
                    match pyInt ys with
                    | none => ⟨[], some invalidIntMsg, c⟩
                    | some y =>
                      match sendRaises tr c (setStickCmd "LEFT".data x y) with
                      | some e => ⟨[], some e, c⟩
                      | none =>
                        let r := runSteps tr rest (c + 1)
                        ⟨.send (setStickCmd "LEFT".data x y) :: .sleep 100 :: r.trace,
                          r.err?, r.sent⟩
                | _ => runSteps tr rest c
              | none =>
                match stripPfx "Wait:".data step with
                | some wTok =>
                  match pyInt wTok with
                  | none => ⟨[], some invalidIntMsg, c⟩
                  | some ms =>
                    if ms < 0 then ⟨[], some negSleepMsg, c⟩
                    else
                      let r := runSteps tr rest c
                      ⟨.sleep ms.toNat :: r.trace, r.err?, r.sent⟩
                | none => runSteps tr rest c

/-- Outcome of `MacroBuilderApp._test_macro` as observed by the user: the wire
trace and the final status label.  Models the body from the `if not steps`
guard onward, for a connected client with a selected macro (the earlier
guards touch only UI state).  A raised exception is caught by the
`except` clause and rendered as `f"Error: {e}"`. -/
def testMacro (tr : Transport) (steps : List (List Char)) : List Ev × List Char :=
  if steps.isEmpty then ([], "Macro has no steps.".data)
  else
    let r := runSteps tr steps 0
    (r.trace,
      match r.err? with
      | none => "Macro sent!".data
      | some e => "Error: ".data ++ e)

/-- Number of socket writes recorded in a trace. -/
def sendCount : List Ev → Nat
  | [] => 0
  | .send _ :: es => sendCount es + 1
  | .sleep _ :: es => sendCount es

/-- Connection state of the app as far as the sender is concerned:
`sockSet` models `self.switch_socket is not None` and `connectedFlag` models
`self.switch_connected`.  `_disconnect_switch` leaves both `false`;
`_connect_switch` success leaves both `true`. -/
structure SwitchConn where
  sockSet : Bool
  connectedFlag : Bool
deriving DecidableEq

/-- Exceptions `_send_sysbot_cmd` can raise. -/
inductive SendErr where
  | notConnected
  | unicodeError
  | transport : List Char → SendErr
deriving DecidableEq

/-- Embeds `MacroBuilderApp._send_sysbot_cmd` (lines 800-804): raise
`RuntimeError("Not connected")` when `self.switch_socket` is unset, otherwise
encode `cmd + "\n"` as ASCII (raising `UnicodeEncodeError` on a non-ASCII
command) and write the bytes, where `wireFail = some e` makes `sendall` raise
an `OSError` with text `e`.  The returned `SwitchConn` is the connection state
after the call: the method mutates nothing, and its callers (`_test_macro`,
the manual-control handlers) catch exceptions and only set a status label, so
the state is returned unchanged on every path. -/
def sendSysbotCmd (st : SwitchConn) (wireFail : Option (List Char)) (cmd : List Char) :
    SwitchConn × Except SendErr (List Char) :=
  if st.sockSet = false then (st, .error .notConnected)
  else if isAscii (cmd ++ ['\n']) = false then (st, .error .unicodeError)
  else
    match wireFail with
    | some e => (st, .error (.transport e))
    | none => (st, .ok (cmd ++ ['\n']))

/-- One entry of `self.macros` as the clone operation sees it.  A Python dict
stores its `'steps'` value as a reference to a list object; `stepsRef` is that
reference (an identity into a heap of step lists), so that `dict.copy()`
sharing is expressible. -/
structure MacroRec where
  name : List Char
  trigger : List Char
  stepsRef : Nat
deriving DecidableEq

/-- Embeds lines 457-458 of `_clone_macro`: `macro = self.macros[idx].copy()`
copies the dict (every field keeps its value; `stepsRef` still denotes the
same list object) and `macro['name'] += " (Copy)"` rebinds only the name. -/
def cloneRecord (m : MacroRec) : MacroRec :=
  { m with name := m.name ++ " (Copy)".data }

/-- Embeds `MacroBuilderApp._clone_macro` (lines 455-461) for a valid selected
index: the shallow-copied, renamed record is inserted right after the
original (`self.macros.insert(self.selected_index + 1, macro)`). -/
def cloneMacroAt (lib : List MacroRec) (i : Fin lib.length) : List MacroRec :=
  lib.take (i + 1) ++ cloneRecord (lib.get i) :: lib.drop (i + 1)

/-- One record of an imported macro file as the import loop sees it: the two
trigger-related dict keys, each possibly absent. -/
structure RawMacro where
  trigger? : Option (List Char)
  chatCommand? : Option (List Char)
deriving DecidableEq

/-- Embeds the per-record normalisation of `_import_macros` (lines 495-497):
`if 'chat_command' in m and 'trigger' not in m: m['trigger'] = m['chat_command']`. -/
def importFix (m : RawMacro) : RawMacro :=
  if m.chatCommand?.isSome && m.trigger?.isNone then { m with trigger? := m.chatCommand? }
  else m

/-- Embeds the load path of `_import_macros` (lines 495-498): normalise each
incoming record, then `self.macros.extend(data)`. -/
def importMacros (lib newData : List RawMacro) : List RawMacro :=
  lib ++ newData.map importFix

/-- Python `str.strip()` on the ASCII-whitespace text the entries hold. -/
def pyStrip (s : List Char) : List Char :=
  ((s.dropWhile Char.isWhitespace).reverse.dropWhile Char.isWhitespace).reverse

/-- One saved macro record as built by `_save_macro` (line 517). -/
structure SavedMacro where
  name : List Char
  trigger : List Char
  chatCommand : List Char
  steps : List (List Char)
deriving DecidableEq

/-- Macro-library state touched by `_save_macro`: `self.macros` and
`self.selected_index`. -/
structure EditorState where
  saved : List SavedMacro
  selected? : Option Nat
deriving DecidableEq

/-- Embeds `MacroBuilderApp._save_macro` (lines 504-524).  The name and
trigger entries are stripped; an empty name, then an empty trigger, then an
empty step list each abort with the corresponding `messagebox.showerror` text
(returned as `some msg`) leaving the library untouched.  Otherwise the record
`{'name': name, 'trigger': trigger, 'chat_command': trigger, 'steps': steps}`
replaces the selected entry when the selected index is in range, else is
appended with the selection moved to it, and the save succeeds (`none`). -/
def saveMacro (st : EditorState) (nameRaw triggerRaw : List Char)
    (steps : List (List Char)) : EditorState × Option (List Char) :=
  let nm := pyStrip nameRaw
  let tg := pyStrip triggerRaw
  if nm = [] then (st, some "Macro name is required.".data)
  else if tg = [] then (st, some "Trigger is required.".data)
  else if steps = [] then (st, some "At least one step is required.".data)
  else
    let m : SavedMacro := ⟨nm, tg, tg, steps⟩
    match st.selected? with
    | some i =>
      if i < st.saved.length then (⟨st.saved.set i m, st.selected?⟩, none)
      else (⟨st.saved ++ [m], some st.saved.length⟩, none)
    | none => (⟨st.saved ++ [m], some st.saved.length⟩, none)

/-- Embeds `MacroBuilderApp._interpret_step` (lines 539-551): the same
prefix-sniffing chain, in source order, falling back to the verbatim token. -/
def interpretStep (step : List Char) : List Char :=
  match stripPfx "Button:".data step with
  | some r => "Press ".data ++ r
  | none =>
    match stripPfx "Hold:".data step with
    | some r => "Hold ".data ++ r
    | none =>
      match stripPfx "Release:".data step with
      | some r => "Release ".data ++ r
      | none =>
        match stripPfx "Stick:".data step with
        | some r => "Move stick to ".data ++ r
        | none =>
          match stripPfx "Wait:".data step with
          | some r => "Wait ".data ++ r ++ " ms".data
          | none => step

/-- Embeds the text computed by `MacroBuilderApp._update_preview`
(lines 526-537): the raw pane is `','.join(steps)` and the interpreted pane
is `'\n'.join(self._interpret_step(s) for s in steps)`. -/
def updatePreview (steps : List (List Char)) : List Char × List Char :=
  (List.intercalate ",".data steps,
    List.intercalate "\n".data (steps.map interpretStep))

/-- Clamp used by the stick pickers: `max(-32767, min(32767, v))`. -/
def clampStick (v : Int) : Int := max (-32767) (min 32767 v)

/-- Embeds `MacroBuilderApp._on_stick_grid_click` (lines 664-670).  The pixel
coordinates are mapped to the stick range and clamped.  CPython computes
`int((event.x / 140) * 2 * 32767 - 32767)` in floating point and `int()`
truncates toward zero; here the same expression is evaluated exactly over the
rationals, `(ex * 65534 - 32767 * 140) / 140`, and truncated toward zero with
`Int.tdiv` (float rounding error is not modelled; it cannot move a value
across the clamp bounds by more than it moves the unclamped value, and no
claim depends on the exact pixel mapping). -/
def onStickGridClick (ex ey : Int) : Int × Int :=
  let x := Int.tdiv (ex * 2 * 32767 - 32767 * 140) 140
  let y := Int.tdiv ((140 - ey) * 2 * 32767 - 32767 * 140) 140
  (clampStick x, clampStick y)

/-- Condition of `_test_macro`'s lookahead being negative: the step list has
no next entry, or the next entry does not start with `Wait:`. -/
def lookaheadNotWait : List (List Char) → Prop
  | [] => True
  | next :: _ => stripPfx "Wait:".data next = none

instance : ∀ l, Decidable (lookaheadNotWait l)
  | [] => .isTrue trivial
  | _ :: _ => inferInstanceAs (Decidable (_ = _))

/-- True iff `len(xy) == 2` for the result of a payload split. -/
def twoFields : List (List Char) → Bool
  | [_, _] => true
  | _ => false

/-- Tokens `_test_macro` silently skips: nothing matches any of the seven
recognized sniffs, or a stick sniff matches but the payload does not split
into exactly two comma-separated fields.  Mirrors the branch order of the
source chain. -/
def skipB (t : List Char) : Bool :=
  match stripPfx "Button:".data t with
  | some _ => false
  | none =>
    match stripPfx "Hold:".data t with
    | some _ => false
    | none =>
      match stripPfx "Release:".data t with
      | some _ => false
      | none =>
        match stripPfx "%".data t with
        | some p => !twoFields (List.splitOn ',' p)
        | none =>
          match stripPfx "&".data t with
          | some p => !twoFields (List.splitOn ',' p)
          | none =>
            match stripPfx "Stick:".data t with
            | some p => !twoFields (List.splitOn ',' p)
            | none =>
              match stripPfx "Wait:".data t with
              | some _ => false
              | none => true

/-! Helper lemmas about the token and transport primitives. -/

theorem stripPfx_append (p s : List Char) : stripPfx p (p ++ s) = some s := by
  induction p with
  | nil => rfl
  | cons a t ih => simp [stripPfx, ih]

theorem isAscii_cmd (pre btn : List Char) (hpre : isAscii pre = true)
    (hb : isAscii btn = true) : isAscii ((pre ++ btn) ++ ['\n']) = true := by
  simp only [isAscii, List.all_append, Bool.and_eq_true] at *
  exact ⟨⟨hpre, hb⟩, by decide⟩

theorem sendRaises_ok {tr : Transport} {c : Nat} {cmd : List Char}
    (hA : isAscii (cmd ++ ['\n']) = true) (hf : tr.failAt = none) :
    sendRaises tr c cmd = none := by
  simp [sendRaises, hA, hf]

theorem sendRaises_press_ok {tr : Transport} {c : Nat} {btn : List Char}
    (hb : isAscii btn = true) (hf : tr.failAt = none) :
    sendRaises tr c (pressCmd btn) = none :=
  sendRaises_ok (isAscii_cmd "press ".data btn (by decide) hb) hf

theorem sendRaises_release_ok {tr : Transport} {c : Nat} {btn : List Char}
    (hb : isAscii btn = true) (hf : tr.failAt = none) :
    sendRaises tr c (releaseCmd btn) = none :=
  sendRaises_ok (isAscii_cmd "release ".data btn (by decide) hb) hf

theorem sendRaises_click_ok {tr : Transport} {c : Nat} {btn : List Char}
    (hb : isAscii btn = true) (hf : tr.failAt = none) :
    sendRaises tr c (clickCmd btn) = none :=
  sendRaises_ok (isAscii_cmd "click ".data btn (by decide) hb) hf

/-- C1: if the current step is `ButtonTap(b)` (token `Button:<b>`) and the
immediately following step is `Wait(ms)` (token `Wait:<ms>`), playback emits
exactly `press b`, then blocks for `ms` milliseconds, then emits `release b`,
and continues with the steps after the pair at the same point (the `Wait` is
consumed: it contributes no separate delay and no command).  Stated for any
fault-free transport, any position `c` in the run, any parseable non-negative
wait payload, and any ASCII button name. -/
theorem button_tap_wait_coalesces (tr : Transport) (hf : tr.failAt = none)
    (bRaw wTok : List Char) (hA : isAscii (upperTok bRaw) = true)
    (ms : Int) (hp : pyInt wTok = some ms) (hms : 0 ≤ ms)
    (rest : List (List Char)) (c : Nat) :
    runSteps tr (("Button:".data ++ bRaw) :: ("Wait:".data ++ wTok) :: rest) c =
      ⟨Ev.send (pressCmd (upperTok bRaw)) :: Ev.sleep ms.toNat ::
          Ev.send (releaseCmd (upperTok bRaw)) :: (runSteps tr rest (c + 2)).trace,
        (runSteps tr rest (c + 2)).err?, (runSteps tr rest (c + 2)).sent⟩ := by
  have hpress : sendRaises tr c (pressCmd (upperTok bRaw)) = none :=
    sendRaises_press_ok hA hf
  have hrel : sendRaises tr (c + 1) (releaseCmd (upperTok bRaw)) = none :=
    sendRaises_release_ok hA hf
  simp [runSteps, stripPfx, hpress, hrel, hp, not_lt.mpr hms]

/-- C1 witness: the coalescing theorem applied to the macro
`[Button:A, Wait:250]` at the start of a fault-free run. -/
theorem button_tap_wait_coalesces_witness :
    pyInt "250".data = some 250 ∧ isAscii (upperTok "A".data) = true ∧
    runSteps ⟨none, []⟩ (("Button:".data ++ "A".data) :: ("Wait:".data ++ "250".data) :: []) 0 =
      ⟨Ev.send (pressCmd (upperTok "A".data)) :: Ev.sleep (Int.toNat 250) ::
          Ev.send (releaseCmd (upperTok "A".data)) :: (runSteps ⟨none, []⟩ [] 2).trace,
        (runSteps ⟨none, []⟩ [] 2).err?, (runSteps ⟨none, []⟩ [] 2).sent⟩ :=
  ⟨by decide, by decide,
    button_tap_wait_coalesces ⟨none, []⟩ rfl "A".data "250".data (by decide) 250
      (by decide) (by decide) [] 0⟩

/-- C6: a `ButtonTap(b)` step not immediately followed by a `Wait` step emits
exactly `click b` and then the fixed 100 ms settle delay before the remaining
steps are considered; in particular `[Button:A, Button:B]` on a fault-free
transport yields `click A`, settle 100 ms, `click B`, settle 100 ms, and the
success status. -/
theorem button_tap_alone_clicks_and_settles :
    (∀ (tr : Transport) (bRaw : List Char) (rest : List (List Char)) (c : Nat),
      tr.failAt = none → isAscii (upperTok bRaw) = true → lookaheadNotWait rest →
      runSteps tr (("Button:".data ++ bRaw) :: rest) c =
        ⟨Ev.send (clickCmd (upperTok bRaw)) :: Ev.sleep 100 :: (runSteps tr rest (c + 1)).trace,
          (runSteps tr rest (c + 1)).err?, (runSteps tr rest (c + 1)).sent⟩) ∧
    testMacro ⟨none, []⟩ ["Button:A".data, "Button:B".data] =
      ([Ev.send "click A".data, Ev.sleep 100, Ev.send "click B".data, Ev.sleep 100],
        "Macro sent!".data) := by
  constructor
  · intro tr bRaw rest c hf hA hnw
    have hclick : sendRaises tr c (clickCmd (upperTok bRaw)) = none :=
      sendRaises_click_ok hA hf
    have hB := stripPfx_append "Button:".data bRaw
    cases rest with
    | nil => simp [runSteps, hB, hclick]
    | cons next rest2 =>
      have hW : stripPfx "Wait:".data next = none := hnw
      conv_lhs => rw [runSteps.eq_def]
      simp only [hB, hW, hclick]
  · decide

/-- C6 witness: the general clause applied to `Button:X` followed by the
non-`Wait` step `Hold:Y` in a fault-free run. -/
theorem button_tap_alone_clicks_and_settles_witness :
    lookaheadNotWait ["Hold:Y".data] ∧
    runSteps ⟨none, []⟩ (("Button:".data ++ "X".data) :: ["Hold:Y".data]) 0 =
      ⟨Ev.send (clickCmd (upperTok "X".data)) :: Ev.sleep 100 ::
          (runSteps ⟨none, []⟩ ["Hold:Y".data] 1).trace,
        (runSteps ⟨none, []⟩ ["Hold:Y".data] 1).err?,
        (runSteps ⟨none, []⟩ ["Hold:Y".data] 1).sent⟩ :=
  ⟨by decide,
    button_tap_alone_clicks_and_settles.1 ⟨none, []⟩ "X".data ["Hold:Y".data] 0 rfl
      (by decide) (by decide)⟩

/-- C10: a step token matching none of the recognized sniffs
(`Button:`, `Hold:`, `Release:`, `%`, `&`, `Stick:`, `Wait:`), or a stick
token whose payload does not split into exactly two comma-separated fields,
is silently skipped: no command is sent, no exception is raised for it, and
playback continues with the next step unchanged; concretely, a run containing
an unrecognized token and a three-field stick token still ends in the
`Macro sent!` success status. -/
theorem unknown_tokens_silently_skipped :
    (∀ (tr : Transport) (t : List Char) (rest : List (List Char)) (c : Nat),
      skipB t = true → runSteps tr (t :: rest) c = runSteps tr rest c) ∧
    testMacro ⟨none, []⟩ ["zzz".data, "%1,2,3".data, "Hold:A".data] =
      ([Ev.send "press A".data], "Macro sent!".data) := by
  constructor
  · intro tr t rest c hskip
    unfold skipB at hskip
    cases hB : stripPfx "Button:".data t with
    | some _ => simp [hB] at hskip
    | none =>
    cases hH : stripPfx "Hold:".data t with
    | some _ => simp [hB, hH] at hskip
    | none =>
    cases hR : stripPfx "Release:".data t with
    | some _ => simp [hB, hH, hR] at hskip
    | none =>
    cases hP : stripPfx "%".data t with
    | some p =>
      simp only [hB, hH, hR, hP] at hskip
      rcases hS : List.splitOn ',' p with _ | ⟨a, _ | ⟨b, _ | ⟨d, l⟩⟩⟩ <;>
        simp [runSteps, hB, hH, hR, hP, hS, twoFields] at hskip ⊢
    | none =>
    cases hM : stripPfx "&".data t with
    | some p =>
      simp only [hB, hH, hR, hP, hM] at hskip
      rcases hS : List.splitOn ',' p with _ | ⟨a, _ | ⟨b, _ | ⟨d, l⟩⟩⟩ <;>
        simp [runSteps, hB, hH, hR, hP, hM, hS, twoFields] at hskip ⊢
    | none =>
    cases hK : stripPfx "Stick:".data t with
    | some p =>
      simp only [hB, hH, hR, hP, hM, hK] at hskip
      rcases hS : List.splitOn ',' p with _ | ⟨a, _ | ⟨b, _ | ⟨d, l⟩⟩⟩ <;>
        simp [runSteps, hB, hH, hR, hP, hM, hK, hS, twoFields] at hskip ⊢
    | none =>
    cases hW : stripPfx "Wait:".data t with
    | some _ => simp [hB, hH, hR, hP, hM, hK, hW] at hskip
    | none => simp [runSteps, hB, hH, hR, hP, hM, hK, hW]
  · decide

/-- C10 witness: the skipping clause applied to the unrecognized token `zzz`
in front of a `Hold:A` step. -/
theorem unknown_tokens_silently_skipped_witness :
    skipB "zzz".data = true ∧
    runSteps ⟨none, []⟩ ("zzz".data :: ["Hold:A".data]) 0 =
      runSteps ⟨none, []⟩ ["Hold:A".data] 0 :=
  ⟨by decide,
    unknown_tokens_silently_skipped.1 ⟨none, []⟩ "zzz".data ["Hold:A".data] 0 (by decide)⟩

theorem ascii_digitChar (m : Nat) : (Nat.digitChar m).toNat < 128 := by
  rcases Nat.lt_or_ge m 16 with h | h
  · interval_cases m <;> decide
  · have e0 : m ≠ 0 := by omega
    have e1 : m ≠ 1 := by omega
    have e2 : m ≠ 2 := by omega
    have e3 : m ≠ 3 := by omega
    have e4 : m ≠ 4 := by omega
    have e5 : m ≠ 5 := by omega
    have e6 : m ≠ 6 := by omega
    have e7 : m ≠ 7 := by omega
    have e8 : m ≠ 8 := by omega
    have e9 : m ≠ 9 := by omega
    have e10 : m ≠ 10 := by omega
    have e11 : m ≠ 11 := by omega
    have e12 : m ≠ 12 := by omega
    have e13 : m ≠ 13 := by omega
    have e14 : m ≠ 14 := by omega
    have e15 : m ≠ 15 := by omega
    simp only [Nat.digitChar, if_neg e0, if_neg e1, if_neg e2, if_neg e3, if_neg e4,
      if_neg e5, if_neg e6, if_neg e7, if_neg e8, if_neg e9, if_neg e10, if_neg e11,
      if_neg e12, if_neg e13, if_neg e14, if_neg e15]
    decide

theorem ascii_toDigitsCore (b : Nat) :
    ∀ (fuel n : Nat) (acc : List Char), isAscii acc = true →
      isAscii (Nat.toDigitsCore b fuel n acc) = true := by
  intro fuel
  induction fuel with
  | zero =>
    intro n acc h
    simpa [Nat.toDigitsCore] using h
  | succ fuel ih =>
    intro n acc h
    have hd : isAscii (Nat.digitChar (n % b) :: acc) = true := by
      simp only [isAscii, List.all_cons, Bool.and_eq_true, decide_eq_true_eq] at h ⊢
      exact ⟨ascii_digitChar _, h⟩
    simp only [Nat.toDigitsCore]
    split
    · exact hd
    · exact ih _ _ hd

theorem ascii_intChars (n : Int) : isAscii (intChars n) = true := by
  cases n with
  | ofNat m => exact ascii_toDigitsCore 10 (m + 1) m [] rfl
  | negSucc m =>
    have h := ascii_toDigitsCore 10 (m + 1 + 1) (m + 1) [] rfl
    show isAscii ('-' :: Nat.toDigits 10 (m + 1)) = true
    simp only [Nat.toDigits] at h
    simp only [isAscii, List.all_cons, Bool.and_eq_true, decide_eq_true_eq] at h ⊢
    exact ⟨by decide, h⟩

theorem isAscii_append2 (a b : List Char) (ha : isAscii a = true)
    (hb : isAscii b = true) : isAscii (a ++ b) = true := by
  simp only [isAscii, List.all_append, Bool.and_eq_true]
  exact ⟨ha, hb⟩

theorem isAscii_setStick (side : List Char) (x y : Int) (hside : isAscii side = true) :
    isAscii (setStickCmd side x y ++ ['\n']) = true := by
  refine isAscii_append2 _ _ ?_ (by decide)
  simp only [setStickCmd]
  refine isAscii_append2 _ _ ?_ (ascii_intChars y)
  refine isAscii_append2 _ _ ?_ (by decide)
  refine isAscii_append2 _ _ ?_ (ascii_intChars x)
  refine isAscii_append2 _ _ ?_ (by decide)
  exact isAscii_append2 _ _ (by decide) hside

/-- C4 counterexample: the stick token `%40000,0` carries a parseable
x-coordinate outside `[-32767, 32767]`, yet playback neither raises nor
rejects it — the unclamped command `setStick LEFT 40000 0` is sent to the
device and the run ends in the success status. -/
theorem out_of_range_stick_text_sent :
    testMacro ⟨none, []⟩ ["%40000,0".data] =
      ([Ev.send "setStick LEFT 40000 0".data, Ev.sleep 100], "Macro sent!".data) ∧
    (32767 : Int) < 40000 := by
  exact ⟨by decide, by decide⟩

/-- C4 amended: for every stick token arriving as text — `%<x>,<y>`,
`&<x>,<y>` or legacy `Stick:<x>,<y>` — whose payload splits into two
parseable integers, playback sends the corresponding `setStick` command with
the coordinates exactly as parsed: no range check, no clamping and no
`ParseError`, whatever the values (shown concretely for `%99999,0`, far out
of range); coordinates produced by the stick-grid picker, by contrast, are
clamped into `[-32767, 32767]` for every pixel position. -/
theorem stick_text_unchecked_grid_clamped :
    (∀ (tr : Transport) (payload xs ys : List Char) (x y : Int)
        (rest : List (List Char)) (c : Nat),
      tr.failAt = none → List.splitOn ',' payload = [xs, ys] →
      pyInt xs = some x → pyInt ys = some y →
      runSteps tr (('%' :: payload) :: rest) c =
        ⟨Ev.send (setStickCmd "LEFT".data x y) :: Ev.sleep 100 ::
            (runSteps tr rest (c + 1)).trace,
          (runSteps tr rest (c + 1)).err?, (runSteps tr rest (c + 1)).sent⟩) ∧
    (∀ (tr : Transport) (payload xs ys : List Char) (x y : Int)
        (rest : List (List Char)) (c : Nat),
      tr.failAt = none → List.splitOn ',' payload = [xs, ys] →
      pyInt xs = some x → pyInt ys = some y →
      runSteps tr (('&' :: payload) :: rest) c =
        ⟨Ev.send (setStickCmd "RIGHT".data x y) :: Ev.sleep 100 ::
            (runSteps tr rest (c + 1)).trace,
          (runSteps tr rest (c + 1)).err?, (runSteps tr rest (c + 1)).sent⟩) ∧
    (∀ (tr : Transport) (payload xs ys : List Char) (x y : Int)
        (rest : List (List Char)) (c : Nat),
      tr.failAt = none → List.splitOn ',' payload = [xs, ys] →
      pyInt xs = some x → pyInt ys = some y →
      runSteps tr (("Stick:".data ++ payload) :: rest) c =
        ⟨Ev.send (setStickCmd "LEFT".data x y) :: Ev.sleep 100 ::
            (runSteps tr rest (c + 1)).trace,
          (runSteps tr rest (c + 1)).err?, (runSteps tr rest (c + 1)).sent⟩) ∧
    testMacro ⟨none, []⟩ ["%99999,0".data] =
      ([Ev.send "setStick LEFT 99999 0".data, Ev.sleep 100], "Macro sent!".data) ∧
    (∀ ex ey : Int,
      -32767 ≤ (onStickGridClick ex ey).1 ∧ (onStickGridClick ex ey).1 ≤ 32767 ∧
      -32767 ≤ (onStickGridClick ex ey).2 ∧ (onStickGridClick ex ey).2 ≤ 32767) := by
  refine ⟨?_, ?_, ?_, by decide, ?_⟩
  · intro tr payload xs ys x y rest c hf hS hx hy
    have hB : stripPfx "Button:".data ('%' :: payload) = none := rfl
    have hH : stripPfx "Hold:".data ('%' :: payload) = none := rfl
    have hR : stripPfx "Release:".data ('%' :: payload) = none := rfl
    have hP : stripPfx "%".data ('%' :: payload) = some payload := rfl
    have hs : sendRaises tr c (setStickCmd "LEFT".data x y) = none :=
      sendRaises_ok (isAscii_setStick "LEFT".data x y (by decide)) hf
    conv_lhs => rw [runSteps.eq_def]
    simp only [hB, hH, hR, hP, hS, hx, hy, hs]
  · intro tr payload xs ys x y rest c hf hS hx hy
    have hB : stripPfx "Button:".data ('&' :: payload) = none := rfl
    have hH : stripPfx "Hold:".data ('&' :: payload) = none := rfl
    have hR : stripPfx "Release:".data ('&' :: payload) = none := rfl
    have hP : stripPfx "%".data ('&' :: payload) = none := rfl
    have hM : stripPfx "&".data ('&' :: payload) = some payload := rfl
    have hs : sendRaises tr c (setStickCmd "RIGHT".data x y) = none :=
      sendRaises_ok (isAscii_setStick "RIGHT".data x y (by decide)) hf
    conv_lhs => rw [runSteps.eq_def]
    simp only [hB, hH, hR, hP, hM, hS, hx, hy, hs]
  · intro tr payload xs ys x y rest c hf hS hx hy
    have hB : stripPfx "Button:".data ("Stick:".data ++ payload) = none := rfl
    have hH : stripPfx "Hold:".data ("Stick:".data ++ payload) = none := rfl
    have hR : stripPfx "Release:".data ("Stick:".data ++ payload) = none := rfl
    have hP : stripPfx "%".data ("Stick:".data ++ payload) = none := rfl
    have hM : stripPfx "&".data ("Stick:".data ++ payload) = none := rfl
    have hK : stripPfx "Stick:".data ("Stick:".data ++ payload) = some payload :=
      stripPfx_append _ _
    have hs : sendRaises tr c (setStickCmd "LEFT".data x y) = none :=
      sendRaises_ok (isAscii_setStick "LEFT".data x y (by decide)) hf
    conv_lhs => rw [runSteps.eq_def]
    simp only [hB, hH, hR, hP, hM, hK, hS, hx, hy, hs]
  · intro ex ey
    simp only [onStickGridClick, clampStick]
    refine ⟨le_max_left _ _, max_le (by norm_num) (min_le_left _ _),
      le_max_left _ _, max_le (by norm_num) (min_le_left _ _)⟩

/-- C4 witness: the universal `%`-clause applied to the out-of-range token
`%99999,0` at the start of a fault-free run. -/
theorem stick_text_unchecked_grid_clamped_witness :
    List.splitOn ',' "99999,0".data = ["99999".data, "0".data] ∧
    pyInt "99999".data = some 99999 ∧ pyInt "0".data = some 0 ∧
    runSteps ⟨none, []⟩ (('%' :: "99999,0".data) :: []) 0 =
      ⟨Ev.send (setStickCmd "LEFT".data 99999 0) :: Ev.sleep 100 ::
          (runSteps ⟨none, []⟩ [] 1).trace,
        (runSteps ⟨none, []⟩ [] 1).err?, (runSteps ⟨none, []⟩ [] 1).sent⟩ :=
  ⟨by decide, by decide, by decide,
    stick_text_unchecked_grid_clamped.1 ⟨none, []⟩ "99999,0".data "99999".data "0".data
      99999 0 [] 0 rfl (by decide) (by decide) (by decide)⟩

/-- C2 counterexample: two playbacks of the same macro `[Hold:A, Hold:B]`
whose send fails at different step indices (the first versus the second step)
produce the identical failure result `Error: boom` — the result reports only
the transport error text, so it cannot cite the failing step index. -/
theorem send_failure_result_lacks_step_index :
    (testMacro ⟨some 0, "boom".data⟩ ["Hold:A".data, "Hold:B".data]).2 =
      "Error: boom".data ∧
    (testMacro ⟨some 1, "boom".data⟩ ["Hold:A".data, "Hold:B".data]).2 =
      "Error: boom".data ∧
    (testMacro ⟨some 0, "boom".data⟩ ["Hold:A".data, "Hold:B".data]).1 = [] ∧
    (testMacro ⟨some 1, "boom".data⟩ ["Hold:A".data, "Hold:B".data]).1 =
      [Ev.send "press A".data] := by
  exact ⟨by decide, by decide, by decide, by decide⟩

theorem sendRaises_none_ne {tr : Transport} {n c : Nat} {cmd : List Char}
    (hf : tr.failAt = some n) (h : sendRaises tr c cmd = none) : c ≠ n := by
  intro he
  subst he
  by_cases ha : isAscii (cmd ++ ['\n']) = false <;> simp [sendRaises, ha, hf] at h

theorem runSteps_sendCount_bound (tr : Transport) (n : Nat) (hf : tr.failAt = some n) :
    ∀ (k : Nat) (steps : List (List Char)) (c : Nat), steps.length ≤ k → c ≤ n →
      c + sendCount (runSteps tr steps c).trace ≤ n := by
  intro k
  induction k with
  | zero =>
    intro steps c hl hc
    cases steps with
    | nil => simpa [runSteps, sendCount] using hc
    | cons s rest => simp at hl
  | succ k ih =>
    intro steps c hl hc
    cases steps with
    | nil => simpa [runSteps, sendCount] using hc
    | cons step rest =>
      have hlr : rest.length ≤ k := by simp at hl; omega
      rw [runSteps.eq_def]
      cases hB : stripPfx "Button:".data step with
      | some bRaw =>
        simp only [hB]
        cases rest with
        | nil =>
          cases hs : sendRaises tr c (clickCmd (upperTok bRaw)) with
          | some e => simp [hs, sendCount]; omega
          | none =>
            have hne := sendRaises_none_ne hf hs
            simp [hs, sendCount]; omega
        | cons next rest2 =>
          have hlr2 : rest2.length ≤ k := by simp at hl; omega
          cases hW : stripPfx "Wait:".data next with
          | some wTok =>
            simp only [hW]
            cases hs : sendRaises tr c (pressCmd (upperTok bRaw)) with
            | some e => simp [hs, sendCount]; omega
            | none =>
              have hne := sendRaises_none_ne hf hs
              cases hp : pyInt wTok with
              | none => simp [hs, hp, sendCount]; omega
              | some ms =>
                by_cases hm : ms < 0
                · simp [hs, hp, hm, sendCount]; omega
                · cases hs2 : sendRaises tr (c + 1) (releaseCmd (upperTok bRaw)) with
                  | some e => simp [hs, hp, hm, hs2, sendCount]; omega
                  | none =>
                    have hne2 := sendRaises_none_ne hf hs2
                    have hrec := ih rest2 (c + 2) hlr2 (by omega)
                    simp [hs, hp, hm, hs2, sendCount]
                    omega
          | none =>
            simp only [hW]
            cases hs : sendRaises tr c (clickCmd (upperTok bRaw)) with
            | some e => simp [hs, sendCount]; omega
            | none =>
              have hne := sendRaises_none_ne hf hs
              have hrec := ih (next :: rest2) (c + 1) hlr (by omega)
              simp [hs, sendCount]
              omega
      | none =>
      simp only [hB]
      cases hH : stripPfx "Hold:".data step with
      | some bRaw =>
        cases hs : sendRaises tr c (pressCmd (upperTok bRaw)) with
        | some e => simp [hH, hs, sendCount]; omega
        | none =>
          have hne := sendRaises_none_ne hf hs
          have hrec := ih rest (c + 1) hlr (by omega)
          simp [hH, hs, sendCount]
          omega
      | none =>
      simp only [hH]
      cases hR : stripPfx "Release:".data step with
      | some bRaw =>
        cases hs : sendRaises tr c (releaseCmd (upperTok bRaw)) with
        | some e => simp [hR, hs, sendCount]; omega
        | none =>
          have hne := sendRaises_none_ne hf hs
          have hrec := ih rest (c + 1) hlr (by omega)
          simp [hR, hs, sendCount]
          omega
      | none =>
      simp only [hR]
      cases hP : stripPfx "%".data step with
      | some payload =>
        simp only [hP]
        rcases hS : List.splitOn ',' payload with _ | ⟨xs, _ | ⟨ys, _ | ⟨z, zs⟩⟩⟩
        · have hrec := ih rest c hlr hc
          simp [hS, sendCount]; omega
        · have hrec := ih rest c hlr hc
          simp [hS, sendCount]; omega
        · simp only [hS]
          cases hx : pyInt xs with
          | none => simp [hx, sendCount]; omega
          | some x =>
            cases hy : pyInt ys with
            | none => simp [hx, hy, sendCount]; omega
            | some y =>
              cases hs : sendRaises tr c (setStickCmd "LEFT".data x y) with
              | some e => simp [hx, hy, hs, sendCount]; omega
              | none =>
                have hne := sendRaises_none_ne hf hs
                have hrec := ih rest (c + 1) hlr (by omega)
                simp [hx, hy, hs, sendCount]
                omega
        · have hrec := ih rest c hlr hc
          simp [hS, sendCount]; omega
      | none =>
      simp only [hP]
      cases hM : stripPfx "&".data step with
      | some payload =>
        simp only [hM]
        rcases hS : List.splitOn ',' payload with _ | ⟨xs, _ | ⟨ys, _ | ⟨z, zs⟩⟩⟩
        · have hrec := ih rest c hlr hc
          simp [hS, sendCount]; omega
        · have hrec := ih rest c hlr hc
          simp [hS, sendCount]; omega
        · simp only [hS]
          cases hx : pyInt xs with
          | none => simp [hx, sendCount]; omega
          | some x =>
            cases hy : pyInt ys with
            | none => simp [hx, hy, sendCount]; omega
            | some y =>
              cases hs : sendRaises tr c (setStickCmd "RIGHT".data x y) with
              | some e => simp [hx, hy, hs, sendCount]; omega
              | none =>
                have hne := sendRaises_none_ne hf hs
                have hrec := ih rest (c + 1) hlr (by omega)
                simp [hx, hy, hs, sendCount]
                omega
        · have hrec := ih rest c hlr hc
          simp [hS, sendCount]; omega
      | none =>
      simp only [hM]
      cases hK : stripPfx "Stick:".data step with
      | some payload =>
        simp only [hK]
        rcases hS : List.splitOn ',' payload with _ | ⟨xs, _ | ⟨ys, _ | ⟨z, zs⟩⟩⟩
        · have hrec := ih rest c hlr hc
          simp [hS, sendCount]; omega
        · have hrec := ih rest c hlr hc
          simp [hS, sendCount]; omega
        · simp only [hS]
          cases hx : pyInt xs with
          | none => simp [hx, sendCount]; omega
          | some x =>
            cases hy : pyInt ys with
            | none => simp [hx, hy, sendCount]; omega
            | some y =>
              cases hs : sendRaises tr c (setStickCmd "LEFT".data x y) with
              | some e => simp [hx, hy, hs, sendCount]; omega
              | none =>
                have hne := sendRaises_none_ne hf hs
                have hrec := ih rest (c + 1) hlr (by omega)
                simp [hx, hy, hs, sendCount]
                omega
        · have hrec := ih rest c hlr hc
          simp [hS, sendCount]; omega
      | none =>
      simp only [hK]
      cases hW : stripPfx "Wait:".data step with
      | some wTok =>
        cases hp : pyInt wTok with
        | none => simp [hW, hp, sendCount]; omega
        | some ms =>
          by_cases hm : ms < 0
          · simp [hW, hp, hm, sendCount]; omega
          · have hrec := ih rest c hlr hc
            simp [hW, hp, hm, sendCount]
            omega
      | none =>
        have hrec := ih rest c hlr hc
        simp [hW, sendCount]
        omega

/-- C2 amended: on any send failure playback halts at the failing write —
when the transport makes the `n`-th socket write fail, the trace of any run
contains at most `n` sends, so no step after the failing one is attempted —
and the failure result carries only the transport error text (as
`Error: <e>`), not the failing step index (see the counterexample: runs
failing at different step indices return identical results). -/
theorem send_failure_halts_playback (tr : Transport) (steps : List (List Char)) (n : Nat)
    (hf : tr.failAt = some n) : sendCount (testMacro tr steps).1 ≤ n := by
  unfold testMacro
  by_cases he : steps.isEmpty
  · simp [he, sendCount]
  · have h := runSteps_sendCount_bound tr n hf steps.length steps 0 le_rfl (Nat.zero_le n)
    simpa [he] using h

/-- C2 witness: a run of a three-step macro whose second socket write fails
performs at most one send. -/
theorem send_failure_halts_playback_witness :
    (⟨some 1, "boom".data⟩ : Transport).failAt = some 1 ∧
    sendCount
      (testMacro ⟨some 1, "boom".data⟩ ["Hold:A".data, "Hold:B".data, "Hold:C".data]).1 ≤ 1 :=
  ⟨rfl, send_failure_halts_playback ⟨some 1, "boom".data⟩
    ["Hold:A".data, "Hold:B".data, "Hold:C".data] 1 rfl⟩

/-- C3 counterexample: cloning is a shallow dict copy, so the clone's
`'steps'` entry denotes the same list object as the original's.  Writing a
new step list through the clone's reference is therefore visible through the
original's reference: the steps are not a deep copy. -/
theorem clone_shares_steps_list :
    (cloneRecord ⟨"Jump".data, "!jump".data, 7⟩).stepsRef =
      (⟨"Jump".data, "!jump".data, 7⟩ : MacroRec).stepsRef ∧
    Function.update (fun _ => [["Button:A".data]] : Nat → List (List (List Char)))
        (cloneRecord ⟨"Jump".data, "!jump".data, 7⟩).stepsRef [["Button:B".data]]
        ((⟨"Jump".data, "!jump".data, 7⟩ : MacroRec).stepsRef) = [["Button:B".data]] ∧
    ([["Button:B".data]] : List (List (List Char))) ≠ [["Button:A".data]] := by
  refine ⟨rfl, ?_, by decide⟩
  simp [cloneRecord, Function.update]

/-- C3 amended: cloning produces a record whose name is the original name
with the suffix `" (Copy)"` appended and whose trigger is unchanged, but
whose step list is shared with the original (a shallow copy): any store
update through the clone's steps reference is seen through the original's
reference.  The clone is inserted immediately after the original, growing
the library by one. -/
theorem clone_suffixes_name_keeps_trigger_shares_steps :
    ∀ (m : MacroRec) (store : Nat → List (List Char)) (v : List (List Char)),
      (cloneRecord m).name = m.name ++ " (Copy)".data ∧
      (cloneRecord m).trigger = m.trigger ∧
      (cloneRecord m).stepsRef = m.stepsRef ∧
      Function.update store (cloneRecord m).stepsRef v m.stepsRef = v ∧
      ∀ (lib : List MacroRec) (i : Fin lib.length),
        (cloneMacroAt lib i).length = lib.length + 1 := by
  intro m store v
  refine ⟨rfl, rfl, rfl, Function.update_same _ _ _, ?_⟩
  intro lib i
  have hi := i.isLt
  simp [cloneMacroAt]
  omega

/-- C5 counterexample: importing a record that carries both a `trigger` and a
differing legacy `chat_command` leaves the two fields exactly as they came —
after the load both are present and hold different values, so the load does
not keep them mutually synchronized. -/
theorem import_keeps_mismatched_alias :
    importMacros [] [⟨some "!a".data, some "!b".data⟩] =
      [⟨some "!a".data, some "!b".data⟩] ∧
    (some "!a".data : Option (List Char)).isSome = true ∧
    (some "!b".data : Option (List Char)).isSome = true ∧
    "!a".data ≠ "!b".data := by
  exact ⟨by decide, rfl, rfl, by decide⟩

/-- C5 amended: on load the legacy alias is copied into `trigger` only when
`trigger` is absent — a record without a `trigger` key ends up with both
fields equal to the incoming `chat_command`, while any record that already
has a `trigger` key is left completely unchanged (so a record carrying both
fields with different values stays mismatched). -/
theorem import_syncs_only_missing_trigger :
    ∀ (m : RawMacro) (lib newData : List RawMacro),
      (m.trigger? = none → importFix m = ⟨m.chatCommand?, m.chatCommand?⟩) ∧
      (m.trigger?.isSome = true → importFix m = m) ∧
      importMacros lib newData = lib ++ newData.map importFix := by
  intro m lib newData
  refine ⟨?_, ?_, rfl⟩
  · intro ht
    cases hc : m.chatCommand? with
    | none =>
      cases m with
      | mk t c => simp_all [importFix]
    | some v =>
      cases m with
      | mk t c => simp_all [importFix]
  · intro ht
    cases m with
    | mk t c =>
      cases t with
      | none => simp at ht
      | some v => simp [importFix]

/-- C5 witness: the amended load rule applied to a record carrying only the
legacy `chat_command` field. -/
theorem import_syncs_only_missing_trigger_witness :
    (⟨none, some "!jump".data⟩ : RawMacro).trigger? = none ∧
    importFix ⟨none, some "!jump".data⟩ = ⟨some "!jump".data, some "!jump".data⟩ :=
  ⟨rfl, (import_syncs_only_missing_trigger ⟨none, some "!jump".data⟩ [] []).1 rfl⟩

/-- C7 counterexample: a write failure while connected raises the transport
error but leaves the connection state exactly as it was — `switch_socket`
stays set and `switch_connected` stays true, whereas the DISCONNECTED state
(as `_disconnect_switch` establishes it) has both cleared.  The client is
not forced into the DISCONNECTED state. -/
theorem send_failure_keeps_connection_state :
    sendSysbotCmd ⟨true, true⟩ (some "broken pipe".data) "click A".data =
      (⟨true, true⟩, Except.error (SendErr.transport "broken pipe".data)) ∧
    (⟨true, true⟩ : SwitchConn) ≠ ⟨false, false⟩ := by
  exact ⟨rfl, by decide⟩

/-- C7 amended: `send` writes exactly `command + "\n"` as ASCII bytes and
fails with the not-connected error when the socket is unset; a write failure
raises the transport error, but the connection state is returned unchanged on
every path — in particular a write failure does not force a transition to
the DISCONNECTED state. -/
theorem send_writes_newline_ascii :
    ∀ (st : SwitchConn) (wireFail : Option (List Char)) (cmd : List Char),
      (st.sockSet = false → sendSysbotCmd st wireFail cmd = (st, .error .notConnected)) ∧
      (st.sockSet = true → isAscii (cmd ++ ['\n']) = true → wireFail = none →
        sendSysbotCmd st wireFail cmd = (st, .ok (cmd ++ ['\n']))) ∧
      (∀ e, st.sockSet = true → isAscii (cmd ++ ['\n']) = true → wireFail = some e →
        sendSysbotCmd st wireFail cmd = (st, .error (.transport e))) ∧
      (sendSysbotCmd st wireFail cmd).1 = st := by
  intro st wireFail cmd
  refine ⟨?_, ?_, ?_, ?_⟩
  · intro hs
    simp [sendSysbotCmd, hs]
  · intro hs hA hw
    simp [sendSysbotCmd, hs, hA, hw]
  · intro e hs hA hw
    simp [sendSysbotCmd, hs, hA, hw]
  · by_cases hs : st.sockSet = false
    · simp [sendSysbotCmd, hs]
    · by_cases hA : isAscii (cmd ++ ['\n']) = false
      · simp [sendSysbotCmd, hs, hA]
      · cases hw : wireFail <;> simp [sendSysbotCmd, hs, hA, hw]

/-- C7 witness: the amended send contract applied to `click A` over a
connected, healthy socket. -/
theorem send_writes_newline_ascii_witness :
    (⟨true, true⟩ : SwitchConn).sockSet = true ∧
    isAscii ("click A".data ++ ['\n']) = true ∧
    sendSysbotCmd ⟨true, true⟩ none "click A".data =
      (⟨true, true⟩, .ok ("click A".data ++ ['\n'])) :=
  ⟨rfl, by decide,
    (send_writes_newline_ascii ⟨true, true⟩ none "click A".data).2.1 rfl (by decide) rfl⟩

/-- C8: the preview pane shows the step tokens joined by `,` and the
interpreted pane one rendered line per step, joined by newlines, where a
`Button:<NAME>` token renders as `Press <NAME>` and a `Wait:<ms>` token
renders as `Wait <ms> ms`. -/
theorem preview_raw_and_interpreted :
    ∀ (steps : List (List Char)),
      updatePreview steps =
        (List.intercalate ",".data steps,
          List.intercalate "\n".data (steps.map interpretStep)) ∧
      (steps.map interpretStep).length = steps.length ∧
      (∀ r, interpretStep ("Button:".data ++ r) = "Press ".data ++ r) ∧
      (∀ r, interpretStep ("Wait:".data ++ r) = "Wait ".data ++ r ++ " ms".data) := by
  intro steps
  refine ⟨rfl, List.length_map _ _, ?_, ?_⟩
  · intro r
    have hB : stripPfx "Button:".data ("Button:".data ++ r) = some r :=
      stripPfx_append _ _
    simp only [interpretStep, hB]
  · intro r
    have h1 : stripPfx "Button:".data ("Wait:".data ++ r) = none := rfl
    have h2 : stripPfx "Hold:".data ("Wait:".data ++ r) = none := rfl
    have h3 : stripPfx "Release:".data ("Wait:".data ++ r) = none := rfl
    have h4 : stripPfx "Stick:".data ("Wait:".data ++ r) = none := rfl
    have h5 : stripPfx "Wait:".data ("Wait:".data ++ r) = some r :=
      stripPfx_append _ _
    simp only [interpretStep, h1, h2, h3, h4, h5]

/-- C9: saving is blocked with the corresponding missing-field error when the
stripped name is empty, when the stripped trigger is empty, or when the step
list is empty; every blocked save leaves the macro library untouched, and a
save succeeds only when all three fields are non-empty. -/
theorem save_macro_validation :
    ∀ (st : EditorState) (nameRaw triggerRaw : List Char) (steps : List (List Char)),
      (pyStrip nameRaw = [] →
        saveMacro st nameRaw triggerRaw steps = (st, some "Macro name is required.".data)) ∧
      (pyStrip nameRaw ≠ [] → pyStrip triggerRaw = [] →
        saveMacro st nameRaw triggerRaw steps = (st, some "Trigger is required.".data)) ∧
      (pyStrip nameRaw ≠ [] → pyStrip triggerRaw ≠ [] → steps = [] →
        saveMacro st nameRaw triggerRaw steps =
          (st, some "At least one step is required.".data)) ∧
      (∀ e, (saveMacro st nameRaw triggerRaw steps).2 = some e →
        (saveMacro st nameRaw triggerRaw steps).1 = st) ∧
      ((saveMacro st nameRaw triggerRaw steps).2 = none →
        pyStrip nameRaw ≠ [] ∧ pyStrip triggerRaw ≠ [] ∧ steps ≠ []) := by
  intro st nameRaw triggerRaw steps
  by_cases h1 : pyStrip nameRaw = []
  · refine ⟨fun _ => by simp [saveMacro, h1], fun hn => absurd h1 hn,
      fun hn => absurd h1 hn, ?_, ?_⟩
    · intro e _
      simp [saveMacro, h1]
    · intro hnone
      simp [saveMacro, h1] at hnone
  · by_cases h2 : pyStrip triggerRaw = []
    · refine ⟨fun hn => absurd hn h1, fun _ _ => by simp [saveMacro, h1, h2],
        fun _ hn => absurd h2 hn, ?_, ?_⟩
      · intro e _
        simp [saveMacro, h1, h2]
      · intro hnone
        simp [saveMacro, h1, h2] at hnone
    · by_cases h3 : steps = []
      · refine ⟨fun hn => absurd hn h1, fun _ hn => absurd hn h2,
          fun _ _ _ => by simp [saveMacro, h1, h2, h3], ?_, ?_⟩
        · intro e _
          simp [saveMacro, h1, h2, h3]
        · intro hnone
          simp [saveMacro, h1, h2, h3] at hnone
      · refine ⟨fun hn => absurd hn h1, fun _ hn => absurd hn h2,
          fun _ _ hn => absurd hn h3, ?_, fun _ => ⟨h1, h2, h3⟩⟩
        intro e he
        cases hsel : st.selected? with
        | none => simp [saveMacro, h1, h2, h3, hsel] at he
        | some i =>
          by_cases h4 : i < st.saved.length <;>
            simp [saveMacro, h1, h2, h3, hsel, h4] at he

/-- C9 witness: the validation contract applied to a save attempt whose
trigger entry holds only whitespace. -/
theorem save_macro_validation_witness :
    pyStrip "My Macro".data ≠ [] ∧ pyStrip " ".data = [] ∧
    saveMacro ⟨[], none⟩ "My Macro".data " ".data ["Button:A".data] =
      (⟨[], none⟩, some "Trigger is required.".data) :=
  ⟨by decide, by decide,
    (save_macro_validation ⟨[], none⟩ "My Macro".data " ".data ["Button:A".data]).2.1
      (by decide) (by decide)⟩

end MacrosNX
